import Mathlib

/-!
Shallow embedding of the typed-json-rpc library core, translated from the
TypeScript sources:
  src/json-rpc/src/typedChannel/TypedChannelContracts.ts  (contracts, typed channel)
  src/json-rpc/src/StreamBasedChannel.ts                  (id correlation, pending table)
  src/json-rpc-websocket/src/index.ts                     (BaseMessageTransport buffering)
  src/unnamed/part_010                                    (JsonRpcTypes: ErrorCode, messages)
  src/unnamed/part_011                                    (schema: ISerializer)

Modelling conventions:
  - JSON numbers are modelled as integers (no claim depends on non-integer numbers).
  - JavaScript `undefined` for an optional field is modelled as `Option.none`.
  - JavaScript truthiness is modelled explicitly wherever the source relies on it
    (for example `result.errorCode || ErrorCode.genericApplicationError`).
  - Promises are flattened: an async function is modelled by the value it settles
    with; a settled promise ignores later resolve and reject calls, which matters
    once (see `settleResponse`).
  - Handler functions and listener callbacks are identified by their behaviour
    (plain Lean functions) or, where the source compares them by object identity
    (notification descriptors, handler sets), by a natural-number reference tag.
  - The per-call context parameters (TContext, TSendContext) are threaded opaquely
    by the source and are not mentioned by any claim; they are elided.
-/

namespace JsonRpc

/-- JSON value, as in JsonRpcTypes.ts (JSONValue). Numbers restricted to integers. -/
inductive JSONValue where
  | str (s : String)
  | num (n : Int)
  | bool (b : Bool)
  | null
  | obj (fields : List (String × JSONValue))
  | arr (elems : List JSONValue)

/-- JavaScript truthiness of a JSON value: false, 0, the empty string and null are
falsy; every object and array is truthy. -/
def JSONValue.truthy : JSONValue → Bool
  | .str s => s ≠ ""
  | .num n => n ≠ 0
  | .bool b => b
  | .null => false
  | .obj _ => true
  | .arr _ => true

/-- JavaScript Array.isArray on a JSON value. -/
def JSONValue.isArrayJs : JSONValue → Bool
  | .arr _ => true
  | _ => false

/-- Test for the JSON null value (JavaScript val === null). -/
def JSONValue.isNullJs : JSONValue → Bool
  | .null => true
  | _ => false

/-- JavaScript typeof val === "object" on a JSON value.
Note typeof null is "object" in JavaScript, and arrays also have typeof "object". -/
def JSONValue.typeofIsObject : JSONValue → Bool
  | .null => true
  | .obj _ => true
  | .arr _ => true
  | _ => false

/- Error codes from JsonRpcTypes.ts (namespace ErrorCode). -/
namespace ErrorCode

def parseError : Int := -32700

def invalidRequest : Int := -32600

def methodNotFound : Int := -32601

def invalidParams : Int := -32602

def internalError : Int := -32603

def unexpectedServerError : Int := -32000

def genericApplicationError : Int := -320100

end ErrorCode

/-- ErrorObject from JsonRpcTypes.ts: code, message, optional data. -/
structure ErrorObject where
  code : Int
  message : String
  data : Option JSONValue := none

/-- ResponseObject from Channel.ts: either a result or an error. -/
inductive ResponseObject where
  | result (r : JSONValue)
  | error (e : ErrorObject)

/-- RequestObject from Channel.ts. Per the source comment params must be set but
can be null; the channel layer normalizes undefined params to null. -/
structure RequestObject where
  method : String
  params : JSONValue

/-- RequestId from JsonRpcTypes.ts: number or string. The ids this library issues
are the naturals 0, 1, 2, ...; ids received from a peer may also be strings. -/
inductive RequestId where
  | num (n : Nat)
  | str (s : String)

/-- Wire response message (IResponseMessage): id (or null), optional result,
optional error. The constant jsonrpc field is elided. -/
structure IResponseMessage where
  id : Option RequestId
  result : Option JSONValue := none
  error : Option ErrorObject := none

/-- Wire request-or-notification message (IRequestMessage): a notification has no
id. The constant jsonrpc field is elided. -/
structure IRequestMessage where
  method : String
  params : Option JSONValue := none
  id : Option RequestId := none

/-- DeserializationResult from schema (part_011): success with a value, or errors
with a message. -/
inductive DeserializationResult (T : Type) where
  | ok (value : T)
  | errors (errorMessage : String)

/-- ISerializer from schema (part_011). -/
structure ISerializer (T : Type) where
  serializeToJson : T → JSONValue
  deserializeFromJson : JSONValue → DeserializationResult T

/-- Serializers.sAny from schema (part_011): the identity serializer. -/
def sAny : ISerializer JSONValue :=
  { serializeToJson := fun input => input
    deserializeFromJson := fun input => .ok input }

/-- RequestType from TypedChannelContracts.ts: method (possibly undefined inside a
contract), the three serializers, and the optional-request flag, which the
TypeScript constructor defaults to false. -/
structure RequestType (P R E : Type) where
  method : Option String
  paramsSerializer : ISerializer P
  resultSerializer : ISerializer R
  errorSerializer : ISerializer E
  isOptional : Bool := false

/-- RequestType.withMethod: clones the descriptor with the given method. The
TypeScript implementation passes only the four constructor arguments, so
isOptional silently falls back to its default false. -/
def RequestType.withMethod (r : RequestType P R E) (method : String) : RequestType P R E :=
  { method := some method
    paramsSerializer := r.paramsSerializer
    resultSerializer := r.resultSerializer
    errorSerializer := r.errorSerializer }

/-- RequestType.optional: clones the descriptor with isOptional set to true. -/
def RequestType.optional (r : RequestType P R E) : RequestType P R E :=
  { method := r.method
    paramsSerializer := r.paramsSerializer
    resultSerializer := r.resultSerializer
    errorSerializer := r.errorSerializer
    isOptional := true }

/-- NotificationType from TypedChannelContracts.ts. -/
structure NotificationType (P : Type) where
  method : Option String
  paramsSerializer : ISerializer P

/-- NotificationType.withMethod. -/
def NotificationType.withMethod (n : NotificationType P) (method : String) : NotificationType P :=
  { method := some method, paramsSerializer := n.paramsSerializer }

/-- One entry of a contract side map: a request descriptor or a notification
descriptor (OneSideContract values). The heterogeneous TypeScript value types are
instantiated at fixed P, R, E. -/
inductive ContractEntry (P R E : Type) where
  | request (r : RequestType P R E)
  | notification (n : NotificationType P)

/-- Method of a contract entry. -/
def ContractEntry.method : ContractEntry P R E → Option String
  | .request r => r.method
  | .notification n => n.method

/-- withMethod lifted to contract entries, as used by transform. -/
def ContractEntry.withMethod : ContractEntry P R E → String → ContractEntry P R E
  | .request r, m => .request (r.withMethod m)
  | .notification n, m => .notification (n.withMethod m)

/-- isOptional of a contract entry (false for notifications, which carry no flag). -/
def ContractEntry.entryIsOptional : ContractEntry P R E → Bool
  | .request r => r.isOptional
  | .notification _ => false

/-- transform from TypedChannelContracts.ts: for each key of a side map, pick the
method (the stored method if truthy, otherwise the key) and clone the descriptor
via withMethod. -/
def transform (requestMap : List (String × ContractEntry P R E)) :
    List (String × ContractEntry P R E) :=
  requestMap.map fun kv =>
    let key := kv.1
    let req := kv.2
    let method :=
      match req.method with
      | some m => if m ≠ "" then m else key
      | none => key
    (key, req.withMethod method)

/-- Contract value: tags plus the two transformed side maps (class Contract). -/
structure Contract (P R E : Type) where
  tags : List String
  server : List (String × ContractEntry P R E)
  client : List (String × ContractEntry P R E)

/-- contract function from TypedChannelContracts.ts: builds a Contract from the
raw side maps by transforming both sides. -/
def contract (tags : List String)
    (server client : List (String × ContractEntry P R E)) : Contract P R E :=
  { tags := tags, server := transform server, client := transform client }

/-- Decimal digit to character. -/
def digitChar (d : Nat) : Char :=
  match d with
  | 0 => '0' | 1 => '1' | 2 => '2' | 3 => '3' | 4 => '4'
  | 5 => '5' | 6 => '6' | 7 => '7' | 8 => '8' | _ => '9'

/-- Fuel-driven decimal digit expansion (most significant first); total and
kernel-reducible. With fuel at least n this is the usual decimal form of n. -/
def natToCharsAux : Nat → Nat → List Char
  | _, 0 => []
  | 0, _ + 1 => []
  | fuel + 1, n + 1 => natToCharsAux fuel ((n + 1) / 10) ++ [digitChar ((n + 1) % 10)]

/-- Decimal string form of a natural number, the JavaScript result of
prepending the empty string to a nonnegative integer id. -/
def natToString (n : Nat) : String :=
  if n = 0 then "0" else String.mk (natToCharsAux n n)

/-- String form of a request id, as computed by the source via string
concatenation with the empty string. -/
def requestIdToString : RequestId → String
  | .num n => natToString n
  | .str s => s

/-- String form of a response id field; JavaScript renders null as the string
with letters n u l l. -/
def responseIdToString : Option RequestId → String
  | none => "null"
  | some r => requestIdToString r

theorem natToCharsAux_eq_digits (n : Nat) :
    ∀ fuel, n ≤ fuel → natToCharsAux fuel n = ((Nat.digits 10 n).map digitChar).reverse := by
  induction n using Nat.strong_induction_on with
  | _ n ih =>
    intro fuel hf
    match n, fuel with
    | 0, fuel => simp [natToCharsAux]
    | n + 1, fuel + 1 =>
      have hdiv : (n + 1) / 10 < n + 1 := Nat.div_lt_self (Nat.succ_pos n) (by norm_num)
      have hle : (n + 1) / 10 ≤ fuel := Nat.lt_succ_iff.mp (Nat.lt_of_lt_of_le hdiv hf)
      rw [natToCharsAux, ih ((n + 1) / 10) hdiv fuel hle,
        Nat.digits_def' (b := 10) (by norm_num) (Nat.succ_pos n)]
      simp

theorem digitChar_inj : ∀ d1 < 10, ∀ d2 < 10, digitChar d1 = digitChar d2 → d1 = d2 := by
  decide

theorem map_digitChar_inj : ∀ (l1 l2 : List Nat), (∀ d ∈ l1, d < 10) → (∀ d ∈ l2, d < 10) →
    l1.map digitChar = l2.map digitChar → l1 = l2 := by
  intro l1
  induction l1 with
  | nil => intro l2 _ _ h; cases l2 <;> simp_all
  | cons a l ih =>
    intro l2 h1 h2 h
    cases l2 with
    | nil => simp_all
    | cons b l2t =>
      simp only [List.map_cons, List.cons.injEq] at h
      have ha : a < 10 := h1 a (by simp)
      have hb : b < 10 := h2 b (by simp)
      have : a = b := digitChar_inj a ha b hb h.1
      have : l = l2t := ih l2t (fun d hd => h1 d (by simp [hd])) (fun d hd => h2 d (by simp [hd])) h.2
      simp_all

theorem natToString_eq_digits (n : Nat) :
    natToString n = if n = 0 then "0" else String.mk ((Nat.digits 10 n).map digitChar).reverse := by
  unfold natToString
  by_cases h : n = 0
  · simp [h]
  · simp [h, natToCharsAux_eq_digits n n (Nat.le_refl n)]

theorem natToString_injective : Function.Injective natToString := by
  intro a b h
  rw [natToString_eq_digits, natToString_eq_digits] at h
  have digitsBound : ∀ m : Nat, ∀ d ∈ Nat.digits 10 m, d < 10 := fun m d hd =>
    Nat.digits_lt_base (by norm_num) hd
  have nonzeroCase : ∀ m : Nat, m ≠ 0 →
      String.mk ((Nat.digits 10 m).map digitChar).reverse ≠ "0" := by
    intro m hm hcontra
    have hlist : ((Nat.digits 10 m).map digitChar).reverse = ['0'] := by
      have h0 : "0" = String.mk ['0'] := by decide
      rw [h0] at hcontra
      exact congrArg String.data hcontra
    have hmap : (Nat.digits 10 m).map digitChar = ['0'] := by
      have := congrArg List.reverse hlist
      simpa using this
    have hdig : Nat.digits 10 m = [0] := by
      have h0 : ([0] : List Nat).map digitChar = ['0'] := by decide
      exact map_digitChar_inj _ [0] (digitsBound m) (by decide) (hmap.trans h0.symm)
    have hofd := Nat.ofDigits_digits 10 m
    rw [hdig] at hofd
    simp [Nat.ofDigits_cons, Nat.ofDigits_nil] at hofd
    exact hm hofd.symm
  by_cases ha : a = 0 <;> by_cases hb : b = 0
  · rw [ha, hb]
  · rw [if_pos ha, if_neg hb] at h
    exact absurd h.symm (nonzeroCase b hb)
  · rw [if_neg ha, if_pos hb] at h
    exact absurd h (nonzeroCase a ha)
  · rw [if_neg ha, if_neg hb] at h
    have hlist := congrArg String.data h
    have hmap := List.reverse_injective hlist
    have hdig := map_digitChar_inj _ _ (digitsBound a) (digitsBound b) hmap
    exact Nat.digits.injective 10 hdig

/-- Association-list map with JavaScript Map semantics: first matching binding. -/
def mapGet [DecidableEq K] : List (K × V) → K → Option V
  | [], _ => none
  | (k2, v) :: rest, k => if k2 = k then some v else mapGet rest k

/-- Map.set: replace the binding in place when the key exists, otherwise append. -/
def mapSet [DecidableEq K] : List (K × V) → K → V → List (K × V)
  | [], k, v => [(k, v)]
  | (k2, v2) :: rest, k, v => if k2 = k then (k, v) :: rest else (k2, v2) :: mapSet rest k v

/-- Map.delete: remove the binding for the key. -/
def mapDelete [DecidableEq K] (m : List (K × V)) (k : K) : List (K × V) :=
  m.filter fun kv => kv.1 ≠ k

/-- Keys of the map in insertion order. -/
def mapKeys (m : List (K × V)) : List K :=
  m.map Prod.fst

/-- ErrorResult from TypedChannel.ts: a wrapped domain error returned by a
request handler, with an optional error value, message and code. The TypeScript
union requires at least one of error and errorMessage to be present; the model
does not need that restriction. -/
structure ErrorResult (E : Type) where
  error : Option E := none
  errorMessage : Option String := none
  errorCode : Option Int := none

/-- Result from TypedChannel.ts: OkResult or ErrorResult. The source branch
test is key presence of error or errorMessage on the returned object, which for
well-typed results coincides with this tag. -/
inductive HandlerReturn (R E : Type) where
  | ok (value : R)
  | err (e : ErrorResult E)

/-- A value raised (thrown) by a request handler: either a RequestHandlingError
instance, carrying message, optional data and code, or any other exception,
represented by its string rendering. -/
inductive RaisedValue where
  | requestHandlingError (message : String) (data : Option JSONValue) (code : Int)
  | other (text : String)

/-- Settlement of a request handler invocation: the promise resolves with a
Result, or it rejects with a raised value. -/
inductive HandlerOutcome (R E : Type) where
  | returns (r : HandlerReturn R E)
  | raises (v : RaisedValue)

/-- A notification descriptor together with its JavaScript object identity; the
channel compares descriptors by reference when re-registering. -/
structure NotificationTypeObj (P : Type) where
  ref : Nat
  type : NotificationType P

/-- One entry of the typed-channel dispatch table (_handler): a request entry
with exactly one handler function, or a notification entry with the descriptor
object and a set of handler functions. Notification handler functions are
identified by reference tags; the set keeps insertion order like a JS Set. -/
inductive TableEntry (P R E : Type) where
  | request (requestType : RequestType P R E) (handler : P → RequestId → HandlerOutcome R E)
  | notification (notificationType : NotificationTypeObj P) (handlers : List Nat)

/-- Dispatch table: keyed by the descriptor method (a string, or the JavaScript
undefined key when a contract descriptor was never given a method). -/
abbrev HandlerTable (P R E : Type) := List (Option String × TableEntry P R E)

/-- JS Set.add on the handler set: no duplicates, insertion order. -/
def setAdd (hs : List Nat) (h : Nat) : List Nat :=
  if h ∈ hs then hs else hs ++ [h]

/-- String interpolation of a possibly-undefined method name. -/
def methodStr : Option String → String
  | some m => m
  | none => "undefined"

/-- TypedChannel.registerRequestHandler: fails when any entry is already
registered under the method, otherwise stores the single request handler. -/
def registerRequestHandler (table : HandlerTable P R E) (requestType : RequestType P R E)
    (handler : P → RequestId → HandlerOutcome R E) : Except String (HandlerTable P R E) :=
  match mapGet table requestType.method with
  | some _ =>
    .error ("Handler with method \"" ++ methodStr requestType.method ++ "\" already registered.")
  | none => .ok (mapSet table requestType.method (.request requestType handler))

/-- TypedChannel.registerNotificationHandler: creates a fresh entry with a
one-element handler set, fails when the method is registered as a request or
for a different descriptor object, and otherwise adds to the existing set. -/
def registerNotificationHandler (table : HandlerTable P R E) (type : NotificationTypeObj P)
    (handler : Nat) : Except String (HandlerTable P R E) :=
  match mapGet table type.type.method with
  | none => .ok (mapSet table type.type.method (.notification type [handler]))
  | some (.request _ _) =>
    .error ("Method \"" ++ methodStr type.type.method ++ "\" was already registered as request handler.")
  | some (.notification registered hs) =>
    if registered.ref ≠ type.ref then
      .error ("Method \"" ++ methodStr type.type.method ++ "\" was registered for a different type.")
    else
      .ok (mapSet table type.type.method (.notification registered (setAdd hs handler)))

/-- TypedChannel.handleRequest, translated branch for branch. The errTruthy
parameter is JavaScript truthiness on the domain-error type, used by the source
in the conditional expression that computes the error data. -/
def handleRequest (sendExceptionDetails : Bool) (errTruthy : E → Bool)
    (table : HandlerTable P R E) (request : RequestObject) (requestId : RequestId) :
    ResponseObject :=
  match mapGet table (some request.method) with
  | none =>
    .error
      { code := ErrorCode.methodNotFound
        message := "No request handler for \"" ++ request.method ++ "\"."
        data := some (.obj [("method", .str request.method)]) }
  | some (.notification _ _) =>
    .error
      { code := ErrorCode.invalidRequest
        message := "\"" ++ request.method ++ "\" is registered as notification, but was sent as request."
        data := some (.obj [("method", .str request.method)]) }
  | some (.request requestType handler) =>
    match requestType.paramsSerializer.deserializeFromJson request.params with
    | .errors errorMessage =>
      .error
        { code := ErrorCode.invalidParams
          message := "Got invalid params: " ++ errorMessage
          data := some (.obj [("errors", .str errorMessage)]) }
    | .ok args =>
      match handler args requestId with
      | .returns (.ok value) =>
        .result (requestType.resultSerializer.serializeToJson value)
      | .returns (.err result) =>
        let errorData : Option JSONValue :=
          match result.error with
          | some e => if errTruthy e then some (requestType.errorSerializer.serializeToJson e) else none
          | none => none
        let code : Int :=
          match result.errorCode with
          | some c => if c ≠ 0 then c else ErrorCode.genericApplicationError
          | none => ErrorCode.genericApplicationError
        let message : String :=
          match result.errorMessage with
          | some m => if m ≠ "" then m else "An error was returned"
          | none => "An error was returned"
        .error { code := code, message := message, data := errorData }
      | .raises (.requestHandlingError message _ code) =>
        .error { code := code, message := message }
      | .raises (.other text) =>
        .error
          { code := ErrorCode.unexpectedServerError
            message :=
              if sendExceptionDetails then
                "An exception was thrown while handling a request: " ++ text ++ "."
              else
                "Server has thrown an unexpected exception" }

/-- Log entries produced by the typed channel (RpcLogger debug and warn). -/
inductive LogEvent where
  | debug (text : String)
  | warn (text : String)

/-- Observable effects of TypedChannel.handleNotification: which registered
handlers ran, which unknown-notification handlers ran, and what was logged.
The function returns void in the source, so no response can be produced. -/
structure NotificationOutcome where
  invokedHandlers : List Nat
  invokedUnknownHandlers : List Nat
  logs : List LogEvent

/-- TypedChannel.handleNotification, translated branch for branch. Exceptions
from individual notification handlers are caught and logged in the source and
do not change which handlers are invoked, so handler invocation is recorded by
reference tag only. -/
def handleNotification (table : HandlerTable P R E)
    (unknownNotificationHandlers : List Nat) (request : RequestObject) : NotificationOutcome :=
  match mapGet table (some request.method) with
  | none =>
    { invokedHandlers := []
      invokedUnknownHandlers := unknownNotificationHandlers
      logs :=
        if unknownNotificationHandlers.isEmpty then
          [.debug ("Unhandled notification \"" ++ request.method ++ "\"")]
        else [] }
  | some (.request _ _) =>
    { invokedHandlers := []
      invokedUnknownHandlers := []
      logs := [.debug ("\"" ++ request.method ++ "\" is registered as request, but was sent as notification.")] }
  | some (.notification notificationType handlers) =>
    match notificationType.type.paramsSerializer.deserializeFromJson request.params with
    | .errors errorMessage =>
      { invokedHandlers := []
        invokedUnknownHandlers := []
        logs := [.debug ("Got invalid params: " ++ errorMessage)] }
    | .ok _ =>
      { invokedHandlers := handlers
        invokedUnknownHandlers := []
        logs := [] }

/-- Outcome observed by the caller of TypedChannel.request once the response
arrived: the deserialized result, the optional-method sentinel, a raised
RequestHandlingError (message, deserialized data, code), or a raised plain
Error (deserialization failures). -/
inductive RequestOutcome (R E : Type) where
  | success (value : R)
  | optionalMethodNotFound
  | raisedRequestHandlingError (message : String) (data : Option E) (code : Int)
  | raisedError (message : String)

/-- Response processing inside TypedChannel.request (after sendRequest
resolved), translated branch for branch. -/
def requestProcessResponse (requestType : RequestType P R E) (response : ResponseObject) :
    RequestOutcome R E :=
  match response with
  | .error err =>
    if requestType.isOptional ∧ err.code = ErrorCode.methodNotFound then
      .optionalMethodNotFound
    else
      match err.data with
      | some d =>
        match requestType.errorSerializer.deserializeFromJson d with
        | .errors errorMessage => .raisedError errorMessage
        | .ok value => .raisedRequestHandlingError err.message (some value) err.code
      | none => .raisedRequestHandlingError err.message none err.code
  | .result r =>
    match requestType.resultSerializer.deserializeFromJson r with
    | .errors errorMessage => .raisedError ("Could not deserialize response: " ++ errorMessage)
    | .ok value => .success value

/-- The proxy method built by Contract.buildCounterpart for a request entry:
for an optional descriptor it calls typedChannel.request and converts a raised
error whose code is methodNotFound into the sentinel; otherwise it forwards the
request outcome unchanged. -/
def counterpartRequestCall (requestType : RequestType P R E) (response : ResponseObject) :
    RequestOutcome R E :=
  if requestType.isOptional then
    match requestProcessResponse requestType response with
    | .raisedRequestHandlingError message d code =>
      if code = ErrorCode.methodNotFound then .optionalMethodNotFound
      else .raisedRequestHandlingError message d code
    | o => o
  else requestProcessResponse requestType response

/-- The throw condition of assertObjectArrayOrNull as written in the source:
val !== null, Array.isArray(val), and typeof val !== "object" must all hold.
Since arrays have typeof "object" in JavaScript, the conjunction is
unsatisfiable. -/
def assertObjectArrayOrNullThrows (val : JSONValue) : Bool :=
  !val.isNullJs && val.isArrayJs && !val.typeofIsObject

/-- Modelled from the spec: serialized request params must be a JSON object,
array, or null, never a scalar; this predicate states the membership the assert
was meant to enforce (the source function assertObjectArrayOrNull is present
but its condition is unsatisfiable, see assertObjectArrayOrNullThrows). -/
def specParamsValueAllowed : JSONValue → Bool
  | .obj _ => true
  | .arr _ => true
  | .null => true
  | _ => false

/-- The send path of TypedChannel.notify: serialize the params, run the assert,
and when it does not throw hand the encoded params to the underlying channel. -/
def notifySendParams (notificationType : NotificationType P) (params : P) :
    Except String JSONValue :=
  let encodedParams := notificationType.paramsSerializer.serializeToJson params
  if assertObjectArrayOrNullThrows encodedParams then
    .error "Invalid value! Only null, array and object is allowed."
  else
    .ok encodedParams

/-- The send path of TypedChannel.request up to the sendRequest call: serialize
the args, run the assert, and when it does not throw hand the params to the
underlying channel. -/
def requestSendParams (requestType : RequestType P R E) (args : P) :
    Except String JSONValue :=
  let params := requestType.paramsSerializer.serializeToJson args
  if assertObjectArrayOrNullThrows params then
    .error "Invalid value! Only null, array and object is allowed."
  else
    .ok params

/-- Framing of a ResponseObject into a wire response in
StreamBasedChannel._processRequest. -/
def frameResponse (id : RequestId) (r : ResponseObject) : IResponseMessage :=
  match r with
  | .result v => { id := some id, result := some v }
  | .error e => { id := some id, error := some e }

/-- The value the pending-request callback in StreamBasedChannel.sendRequest
settles the caller promise with: the result field when present, otherwise the
error field; none models the protocol-violation rejection (the source first
rejects and the later resolve call on the settled promise is a no-op). -/
def settleResponse (response : IResponseMessage) : Option ResponseObject :=
  match response.result with
  | some r => some (.result r)
  | none =>
    match response.error with
    | some e => some (.error e)
    | none => none

/-- Normalization message.params || null applied by StreamBasedChannel to
inbound requests and notifications before they reach the listener; JavaScript
truthiness sends every falsy params value to null. -/
def paramsOrNull : Option JSONValue → JSONValue
  | some p => if p.truthy then p else .null
  | none => .null

/-- State of a StreamBasedChannel: the pending-response table keyed by the
string form of the request id (_unprocessedResponses), and the id counter
(_lastUsedRequestId). The table value is a tag identifying the caller future
the stored callback settles. -/
structure StreamChannelState where
  unprocessedResponses : List (String × Nat)
  lastUsedRequestId : Nat

/-- Initial state of a freshly constructed StreamBasedChannel. -/
def initialChannelState : StreamChannelState :=
  { unprocessedResponses := [], lastUsedRequestId := 0 }

/-- Externally triggered transitions of a StreamBasedChannel that touch the
pending table: an outbound sendRequest whose transport send either succeeds or
fails with a reason, and an inbound response message. -/
inductive ChannelEvent where
  | sendRequest (request : RequestObject) (sendFailure : Option String)
  | inboundResponse (message : IResponseMessage)

/-- Observable effects of a transition: the id handed to the messageIdCallback,
a caller future resolving with a response object, a caller future rejecting,
and the debug-logged drop of an unmatched response. -/
inductive ChannelEffect where
  | idIssued (id : Nat)
  | futureResolved (futureId : Nat) (response : ResponseObject)
  | futureRejected (futureId : Nat) (reason : String)
  | droppedUnexpectedResponse

/-- One transition of the StreamBasedChannel, from sendRequest and
_processResponse. sendRequest allocates the next id, records the pending entry
under the string form of the id, and on send failure removes the entry again
and rejects the caller future with the failure reason. _processResponse looks
the string id up, drops unmatched responses, and otherwise removes the entry
and settles the future: result wins over error, and a response with neither
rejects. -/
def stepChannel (s : StreamChannelState) (e : ChannelEvent) :
    StreamChannelState × List ChannelEffect :=
  match e with
  | .sendRequest _ sendFailure =>
    let id := s.lastUsedRequestId
    let strId := natToString id
    let afterSet : StreamChannelState :=
      { unprocessedResponses := mapSet s.unprocessedResponses strId id
        lastUsedRequestId := id + 1 }
    match sendFailure with
    | none => (afterSet, [.idIssued id])
    | some reason =>
      ({ afterSet with unprocessedResponses := mapDelete afterSet.unprocessedResponses strId },
        [.idIssued id, .futureRejected id reason])
  | .inboundResponse message =>
    let strId := responseIdToString message.id
    match mapGet s.unprocessedResponses strId with
    | none => (s, [.droppedUnexpectedResponse])
    | some futureId =>
      let s2 : StreamChannelState :=
        { s with unprocessedResponses := mapDelete s.unprocessedResponses strId }
      match settleResponse message with
      | some response => (s2, [.futureResolved futureId response])
      | none => (s2, [.futureRejected futureId "Response had neither 'result' nor 'error' field set."])

/-- Run of a StreamBasedChannel over a sequence of events, accumulating the
effects in order. -/
def runChannelFrom (s : StreamChannelState) : List ChannelEvent → StreamChannelState × List ChannelEffect
  | [] => (s, [])
  | e :: rest =>
    let step := stepChannel s e
    let tail := runChannelFrom step.1 rest
    (tail.1, step.2 ++ tail.2)

/-- Run from the initial state. -/
def runChannel (events : List ChannelEvent) : StreamChannelState × List ChannelEffect :=
  runChannelFrom initialChannelState events

/-- The ids handed to messageIdCallback within a list of effects, in order. -/
def issuedIds (effects : List ChannelEffect) : List Nat :=
  effects.filterMap fun eff =>
    match eff with
    | .idIssued id => some id
    | _ => none

/-- Number of sendRequest events in a list. -/
def countSendRequests : List ChannelEvent → Nat
  | [] => 0
  | .sendRequest _ _ :: rest => countSendRequests rest + 1
  | .inboundResponse _ :: rest => countSendRequests rest

/-- State of a BaseMessageTransport (json-rpc-websocket/src/index.ts): the
buffered messages (_unprocessedMessages), the single listener slot
(_messageListener, listeners identified by reference tags), and the log of
deliveries (listener, message) in order. -/
structure TransportState (M : Type) where
  unprocessedMessages : List M
  messageListener : Option Nat
  deliveries : List (Nat × M)

/-- The drain loop of BaseMessageTransport.setListener: while the buffer is
nonempty and the listener slot is set, shift the first message and call the
current listener. The behaviour function gives, for a listener and a message,
the value of the listener slot after that call; a listener that reentrantly
calls setListener with a replacement or with undefined is modelled by the slot
value it leaves behind, which the loop re-reads. -/
def drainMessages (beta : Nat → M → Option Nat) :
    List M → Option Nat → List (Nat × M) → List M × Option Nat × List (Nat × M)
  | buffer, none, log => (buffer, none, log)
  | [], some l, log => ([], some l, log)
  | m :: rest, some l, log => drainMessages beta rest (beta l m) (log ++ [(l, m)])

/-- BaseMessageTransport.setListener: store the listener; when it is undefined
return at once, otherwise drain the buffered messages. -/
def setListener (beta : Nat → M → Option Nat) (listener : Option Nat) (s : TransportState M) :
    TransportState M :=
  match listener with
  | none => { s with messageListener := none }
  | some l =>
    let d := drainMessages beta s.unprocessedMessages (some l) s.deliveries
    { unprocessedMessages := d.1, messageListener := d.2.1, deliveries := d.2.2 }

/-- BaseMessageTransport._dispatchReceivedMessage: deliver directly only when
every queued message has been read and a listener is installed; otherwise
buffer the message. -/
def dispatchReceivedMessage (beta : Nat → M → Option Nat) (m : M) (s : TransportState M) :
    TransportState M :=
  match s.messageListener with
  | some l =>
    if s.unprocessedMessages.isEmpty then
      { s with messageListener := beta l m, deliveries := s.deliveries ++ [(l, m)] }
    else
      { s with unprocessedMessages := s.unprocessedMessages ++ [m] }
  | none => { s with unprocessedMessages := s.unprocessedMessages ++ [m] }

theorem mapGet_eq_none_iff [DecidableEq K] (m : List (K × V)) (k : K) :
    mapGet m k = none ↔ k ∉ mapKeys m := by
  induction m with
  | nil => simp [mapGet, mapKeys]
  | cons kv rest ih =>
    by_cases h : kv.1 = k
    · simp [mapGet, mapKeys, h]
    · simp [mapGet, mapKeys, h, ih]
      intro hk
      exact fun he => h he.symm

theorem mapSet_eq_append_of_not_mem [DecidableEq K] (m : List (K × V)) (k : K) (v : V)
    (h : k ∉ mapKeys m) : mapSet m k v = m ++ [(k, v)] := by
  induction m with
  | nil => rfl
  | cons kv rest ih =>
    obtain ⟨k2, v2⟩ := kv
    simp [mapKeys] at h
    rw [mapSet, if_neg (fun he => h.1 he.symm)]
    rw [ih (by simp [mapKeys]; exact h.2)]
    rfl

theorem mapKeys_append (m1 m2 : List (K × V)) :
    mapKeys (m1 ++ m2) = mapKeys m1 ++ mapKeys m2 := by
  simp [mapKeys]

theorem mapDelete_eq_self_of_not_mem [DecidableEq K] (m : List (K × V)) (k : K)
    (h : k ∉ mapKeys m) : mapDelete m k = m := by
  induction m with
  | nil => rfl
  | cons kv rest ih =>
    simp [mapKeys] at h
    have hne : kv.1 ≠ k := fun he => h.1 he.symm
    simp only [mapDelete] at ih ⊢
    rw [List.filter_cons_of_pos (by simpa using hne)]
    rw [ih (by simp [mapKeys]; exact h.2)]

theorem mem_mapKeys_mapDelete [DecidableEq K] (m : List (K × V)) (k k2 : K) :
    k2 ∈ mapKeys (mapDelete m k) ↔ k2 ∈ mapKeys m ∧ k2 ≠ k := by
  induction m with
  | nil => simp [mapDelete, mapKeys]
  | cons kv rest ih =>
    simp only [mapDelete] at ih ⊢
    by_cases h : kv.1 = k
    · rw [List.filter_cons_of_neg (by simp [h])]
      simp only [mapKeys, List.map_cons, List.mem_cons] at ih ⊢
      rw [ih]
      constructor
      · intro hc
        exact ⟨Or.inr hc.1, hc.2⟩
      · rintro ⟨hor, hne⟩
        cases hor with
        | inl he => exact absurd (he.trans h) hne
        | inr hr => exact ⟨hr, hne⟩
    · rw [List.filter_cons_of_pos (by simp [h])]
      simp only [mapKeys, List.map_cons, List.mem_cons] at ih ⊢
      rw [ih]
      constructor
      · intro hc
        cases hc with
        | inl he => exact ⟨Or.inl he, by rw [he]; exact h⟩
        | inr hr => exact ⟨Or.inr hr.1, hr.2⟩
      · rintro ⟨hor, hne⟩
        cases hor with
        | inl he => exact Or.inl he
        | inr hr => exact Or.inr ⟨hr, hne⟩

theorem mapGet_mapDelete_self [DecidableEq K] (m : List (K × V)) (k : K) :
    mapGet (mapDelete m k) k = none := by
  rw [mapGet_eq_none_iff, mem_mapKeys_mapDelete]
  simp

theorem mapGet_mapSet_self [DecidableEq K] (m : List (K × V)) (k : K) (v : V) :
    mapGet (mapSet m k v) k = some v := by
  induction m with
  | nil => simp [mapSet, mapGet]
  | cons kv rest ih =>
    by_cases h : kv.1 = k
    · simp [mapSet, h, mapGet]
    · simp [mapSet, h, mapGet, ih]

/-- Invariant of reachable StreamBasedChannel states: every key of the pending
table is the string form of an already issued id. -/
def goodState (s : StreamChannelState) : Prop :=
  ∀ k ∈ mapKeys s.unprocessedResponses, ∃ i, i < s.lastUsedRequestId ∧ k = natToString i

theorem goodState_fresh {s : StreamChannelState} (h : goodState s) :
    natToString s.lastUsedRequestId ∉ mapKeys s.unprocessedResponses := by
  intro hmem
  obtain ⟨i, hi, he⟩ := h _ hmem
  have := natToString_injective he
  omega

theorem stepChannel_good {s : StreamChannelState} (h : goodState s) (e : ChannelEvent) :
    goodState (stepChannel s e).1 := by
  cases e with
  | sendRequest req sendFailure =>
    have hfresh := goodState_fresh h
    cases sendFailure with
    | none =>
      intro k hk
      simp only [stepChannel] at hk
      rw [mapSet_eq_append_of_not_mem _ _ _ hfresh, mapKeys_append] at hk
      simp only [stepChannel]
      rcases List.mem_append.mp hk with hk1 | hk2
      · obtain ⟨i, hi, he⟩ := h _ hk1
        exact ⟨i, by omega, he⟩
      · simp [mapKeys] at hk2
        exact ⟨s.lastUsedRequestId, by omega, hk2⟩
    | some reason =>
      intro k hk
      simp only [stepChannel] at hk ⊢
      rw [mapSet_eq_append_of_not_mem _ _ _ hfresh] at hk
      rw [mem_mapKeys_mapDelete, mapKeys_append] at hk
      rcases List.mem_append.mp hk.1 with hk1 | hk2
      · obtain ⟨i, hi, he⟩ := h _ hk1
        exact ⟨i, by omega, he⟩
      · simp [mapKeys] at hk2
        exact absurd hk2 hk.2
  | inboundResponse msg =>
    simp only [stepChannel]
    cases hget : mapGet s.unprocessedResponses (responseIdToString msg.id) with
    | none => exact h
    | some futureId =>
      cases hsettle : settleResponse msg with
      | some response =>
        intro k hk
        simp only at hk
        rw [mem_mapKeys_mapDelete] at hk
        exact h _ hk.1
      | none =>
        intro k hk
        simp only at hk
        rw [mem_mapKeys_mapDelete] at hk
        exact h _ hk.1

theorem runChannelFrom_good {s : StreamChannelState} (h : goodState s) (events : List ChannelEvent) :
    goodState (runChannelFrom s events).1 := by
  induction events generalizing s with
  | nil => exact h
  | cons e rest ih => exact ih (stepChannel_good h e)

theorem runChannel_good (events : List ChannelEvent) : goodState (runChannel events).1 := by
  apply runChannelFrom_good
  intro k hk
  simp [initialChannelState, mapKeys] at hk

theorem stepChannel_counter (s : StreamChannelState) :
    (∀ req f, (stepChannel s (.sendRequest req f)).1.lastUsedRequestId = s.lastUsedRequestId + 1) ∧
    (∀ msg, (stepChannel s (.inboundResponse msg)).1.lastUsedRequestId = s.lastUsedRequestId) := by
  constructor
  · intro req f
    cases f <;> rfl
  · intro msg
    simp only [stepChannel]
    cases mapGet s.unprocessedResponses (responseIdToString msg.id) with
    | none => rfl
    | some futureId => cases settleResponse msg <;> rfl

theorem issuedIds_append (l1 l2 : List ChannelEffect) :
    issuedIds (l1 ++ l2) = issuedIds l1 ++ issuedIds l2 := by
  simp [issuedIds]

theorem runChannelFrom_issuedIds (s : StreamChannelState) (events : List ChannelEvent) :
    issuedIds (runChannelFrom s events).2 =
      List.range' s.lastUsedRequestId (countSendRequests events) := by
  induction events generalizing s with
  | nil => simp [runChannelFrom, issuedIds, countSendRequests]
  | cons e rest ih =>
    cases e with
    | sendRequest req f =>
      have hc := (stepChannel_counter s).1 req f
      simp only [runChannelFrom, issuedIds_append, ih, hc, countSendRequests]
      have hstep : issuedIds (stepChannel s (.sendRequest req f)).2 = [s.lastUsedRequestId] := by
        cases f <;> rfl
      rw [hstep, List.range'_succ]
      rfl
    | inboundResponse msg =>
      have hc := (stepChannel_counter s).2 msg
      simp only [runChannelFrom, issuedIds_append, ih, hc, countSendRequests]
      have hstep : issuedIds (stepChannel s (.inboundResponse msg)).2 = [] := by
        simp only [stepChannel]
        cases mapGet s.unprocessedResponses (responseIdToString msg.id) with
        | none => rfl
        | some futureId => cases settleResponse msg <;> rfl
      rw [hstep]
      rfl

theorem drainMessages_stationary {M : Type} (beta : Nat → M → Option Nat) (l : Nat)
    (hstat : ∀ m, beta l m = some l) (buffer : List M) (log : List (Nat × M)) :
    drainMessages beta buffer (some l) log = ([], some l, log ++ buffer.map fun m => (l, m)) := by
  induction buffer generalizing log with
  | nil => simp [drainMessages]
  | cons m rest ih =>
    rw [drainMessages, hstat, ih]
    simp

theorem drainMessages_delivers_prefix {M : Type} (beta : Nat → M → Option Nat)
    (buffer : List M) (lis : Option Nat) (log : List (Nat × M)) :
    ∃ d lis2, drainMessages beta buffer lis log = (buffer.drop d.length, lis2, log ++ d) ∧
      d.map Prod.snd = buffer.take d.length := by
  induction buffer generalizing lis log with
  | nil =>
    refine ⟨[], lis, ?_, by simp⟩
    cases lis <;> simp [drainMessages]
  | cons m rest ih =>
    cases lis with
    | none => exact ⟨[], none, by simp [drainMessages], by simp⟩
    | some l =>
      obtain ⟨d1, lis2, hd, hm⟩ := ih (beta l m) (log ++ [(l, m)])
      refine ⟨(l, m) :: d1, lis2, ?_, ?_⟩
      · rw [drainMessages, hd]
        simp
      · simp [hm]

/-- StreamBasedChannel listener dispatch for an inbound message that has a
method field: with an id it is a request, handled by the typed channel, whose
response is framed and sent; without an id it is a notification, handled by the
typed channel, and nothing is ever sent back. Returns the wire responses sent
and the notification outcome. -/
def processRequestOrNotification (sendExceptionDetails : Bool) (errTruthy : E → Bool)
    (table : HandlerTable P R E) (unknownNotificationHandlers : List Nat)
    (message : IRequestMessage) : List IResponseMessage × NotificationOutcome :=
  match message.id with
  | none =>
    ([], handleNotification table unknownNotificationHandlers
      { method := message.method, params := paramsOrNull message.params })
  | some id =>
    ([frameResponse id (handleRequest sendExceptionDetails errTruthy table
        { method := message.method, params := paramsOrNull message.params } id)],
      { invokedHandlers := [], invokedUnknownHandlers := [], logs := [] })

/-- The error code the typed channel responds with for a returned wrapped
error: the errorCode field when truthy (JavaScript or-default), otherwise the
generic application error. -/
def chosenErrorCode (r : ErrorResult E) : Int :=
  match r.errorCode with
  | some c => if c ≠ 0 then c else ErrorCode.genericApplicationError
  | none => ErrorCode.genericApplicationError

/-- The error message the typed channel responds with for a returned wrapped
error: the errorMessage field when truthy, otherwise the default text. -/
def chosenErrorMessage (r : ErrorResult E) : String :=
  match r.errorMessage with
  | some m => if m ≠ "" then m else "An error was returned"
  | none => "An error was returned"

theorem entryIsOptional_withMethod (e : ContractEntry P R E) (m : String) :
    (e.withMethod m).entryIsOptional = false := by
  cases e <;> rfl

/-- Concrete request descriptor over raw JSON values, used to evaluate the
definitions on explicit inputs. -/
def rtCalc : RequestType JSONValue JSONValue JSONValue :=
  { method := some "calc"
    paramsSerializer := sAny
    resultSerializer := sAny
    errorSerializer := sAny }

/-- The optional variant of rtCalc, as produced by RequestType.optional. -/
def rtCalcOptional : RequestType JSONValue JSONValue JSONValue :=
  rtCalc.optional

/-- The error response a peer sends for an unknown method named calc. -/
def calcMethodNotFoundResponse : ResponseObject :=
  .error
    { code := ErrorCode.methodNotFound
      message := "No request handler for \"calc\"."
      data := some (.obj [("method", .str "calc")]) }

/-- A contract whose server side holds the optional descriptor under the key
calc. -/
def c3Contract : Contract JSONValue JSONValue JSONValue :=
  contract [] [("calc", .request rtCalcOptional)] []

/-- Claim C10 (confirmed): withMethod yields a descriptor with the given
method and the same params, result and error serializers, but with isOptional
always false, even when the receiver is optional; and since contract
construction applies withMethod to every descriptor of both side maps, every
descriptor held inside a constructed Contract has isOptional false. -/
theorem claim_C10 {P R E : Type} :
    (∀ (r : RequestType P R E) (m : String),
      (r.withMethod m).method = some m ∧
      (r.withMethod m).paramsSerializer = r.paramsSerializer ∧
      (r.withMethod m).resultSerializer = r.resultSerializer ∧
      (r.withMethod m).errorSerializer = r.errorSerializer ∧
      (r.withMethod m).isOptional = false) ∧
    (∀ (tags : List String) (server client : List (String × ContractEntry P R E))
        (key : String) (entry : ContractEntry P R E),
      (key, entry) ∈ (contract tags server client).server ++ (contract tags server client).client →
      entry.entryIsOptional = false) := by
  constructor
  · intro r m
    exact ⟨rfl, rfl, rfl, rfl, rfl⟩
  · intro tags server client key entry hmem
    have hcore : ∀ (l : List (String × ContractEntry P R E)),
        (key, entry) ∈ transform l → entry.entryIsOptional = false := by
      intro l hl
      unfold transform at hl
      obtain ⟨kv, hkv, heq⟩ := List.mem_map.mp hl
      have he2 := congrArg Prod.snd heq
      simp only at he2
      rw [← he2]
      exact entryIsOptional_withMethod _ _
    rcases List.mem_append.mp hmem with h1 | h1
    · exact hcore server h1
    · exact hcore client h1

/-- Witness for claim C10: an optional descriptor placed in a contract under
the key calc ends up non-optional. -/
theorem claim_C10_witness :
    (("calc", ContractEntry.request rtCalc) ∈ c3Contract.server ++ c3Contract.client) ∧
    (ContractEntry.request rtCalc).entryIsOptional = false := by
  have hmem : ("calc", ContractEntry.request rtCalc) ∈ c3Contract.server ++ c3Contract.client := by
    simp [c3Contract, contract, transform, rtCalcOptional, rtCalc, RequestType.optional,
      ContractEntry.withMethod, RequestType.withMethod, ContractEntry.method]
  exact ⟨hmem, claim_C10.2 [] [("calc", .request rtCalcOptional)] [] "calc"
    (ContractEntry.request rtCalc) hmem⟩

/-- Claim C3 (code bug): a request through typedChannel.request on a
descriptor marked optional does resolve to the sentinel when the response is a
methodNotFound error, and a non-optional descriptor raises; but a descriptor
placed under a key of a contract side map loses its optional flag, because
transform clones it through withMethod, so the counterpart proxy raises a
RequestHandlingError instead of resolving to the sentinel. -/
theorem claim_C3 :
    requestProcessResponse rtCalcOptional calcMethodNotFoundResponse = .optionalMethodNotFound ∧
    requestProcessResponse rtCalc calcMethodNotFoundResponse =
      .raisedRequestHandlingError "No request handler for \"calc\"."
        (some (.obj [("method", .str "calc")])) ErrorCode.methodNotFound ∧
    rtCalcOptional.isOptional = true ∧
    mapGet c3Contract.server "calc" = some (.request rtCalc) ∧
    rtCalc.isOptional = false ∧
    counterpartRequestCall rtCalc calcMethodNotFoundResponse =
      .raisedRequestHandlingError "No request handler for \"calc\"."
        (some (.obj [("method", .str "calc")])) ErrorCode.methodNotFound := by
  exact ⟨rfl, rfl, rfl, rfl, rfl, rfl⟩

/-- Concrete notification descriptor over raw JSON values. -/
def ntProgress : NotificationType JSONValue :=
  { method := some "progress", paramsSerializer := sAny }

/-- Claim C5 (code bug): the throw condition of assertObjectArrayOrNull is
unsatisfiable, so the assert never throws; a scalar serialized params value is
therefore handed to the underlying channel both on notify and on request,
although such values are outside what the assert was meant to allow. -/
theorem claim_C5 :
    (∀ val : JSONValue, assertObjectArrayOrNullThrows val = false) ∧
    notifySendParams ntProgress (.str "foo") = .ok (.str "foo") ∧
    requestSendParams rtCalc (.num 42) = .ok (.num 42) ∧
    specParamsValueAllowed (.str "foo") = false ∧
    specParamsValueAllowed (.num 42) = false := by
  refine ⟨?_, rfl, rfl, rfl, rfl⟩
  intro val
  cases val <;> rfl

/-- Claim C9 (confirmed): an inbound notification whose method is registered
as a request handler is dropped silently: no wire response is sent, no
registered handler and no unknown-notification handler is invoked, and only a
debug log entry is produced. -/
theorem claim_C9 {P R E : Type} (sendExceptionDetails : Bool) (errTruthy : E → Bool)
    (table : HandlerTable P R E) (unknownNotificationHandlers : List Nat)
    (m : String) (params : Option JSONValue)
    (requestType : RequestType P R E) (handler : P → RequestId → HandlerOutcome R E)
    (hlookup : mapGet table (some m) = some (.request requestType handler)) :
    processRequestOrNotification sendExceptionDetails errTruthy table
        unknownNotificationHandlers { method := m, params := params } =
      ([], { invokedHandlers := []
             invokedUnknownHandlers := []
             logs := [.debug ("\"" ++ m ++ "\" is registered as request, but was sent as notification.")] }) := by
  simp only [processRequestOrNotification, handleNotification, hlookup]

/-- A request-handler table under the method calc used to witness the
notification-drop behaviour. -/
def c9Table : HandlerTable JSONValue JSONValue JSONValue :=
  [(some "calc", .request rtCalc fun _ _ => .returns (.ok .null))]

/-- Witness for claim C9: a notification for the request-registered method
calc produces no wire response, invokes nothing, and logs one debug entry. -/
theorem claim_C9_witness :
    processRequestOrNotification false JSONValue.truthy c9Table [] { method := "calc", params := some .null } =
      ([], { invokedHandlers := []
             invokedUnknownHandlers := []
             logs := [.debug ("\"" ++ "calc" ++ "\" is registered as request, but was sent as notification.")] }) := by
  exact claim_C9 false JSONValue.truthy c9Table [] "calc" (some .null) rtCalc
    (fun _ _ => .returns (.ok .null)) rfl

/-- A handler that raises a RequestHandlingError carrying data. -/
def c2Handler : JSONValue → RequestId → HandlerOutcome JSONValue JSONValue :=
  fun _ _ =>
    .raises (.requestHandlingError "boom" (some (.str "details")) ErrorCode.genericApplicationError)

/-- Dispatch table holding c2Handler under the method calc. -/
def c2Table : HandlerTable JSONValue JSONValue JSONValue :=
  [(some "calc", .request rtCalc c2Handler)]

/-- Counterexample to claim C2 as stated: a handler raises a
RequestHandlingError whose data is the string details, but the response the
channel sends carries no data field at all; the data of the raised error is
not forwarded. -/
theorem claim_C2_counterexample :
    handleRequest false JSONValue.truthy c2Table { method := "calc", params := .null } (.num 0) =
      .error { code := ErrorCode.genericApplicationError, message := "boom", data := none } ∧
    some (JSONValue.str "details") ≠ (none : Option JSONValue) := by
  exact ⟨rfl, by simp⟩

/-- Claim C2 (amended): when a handler raises a RequestHandlingError the
response forwards its code and message but drops its data (the response error
carries no data); any other raised value produces an unexpectedServerError
response whose message carries the exception text exactly when the channels
sendExceptionDetails flag is set. -/
theorem claim_C2 {P R E : Type} (sendExceptionDetails : Bool) (errTruthy : E → Bool)
    (table : HandlerTable P R E) (requestType : RequestType P R E)
    (handler : P → RequestId → HandlerOutcome R E) (m : String) (params : JSONValue)
    (args : P) (requestId : RequestId)
    (hlookup : mapGet table (some m) = some (.request requestType handler))
    (hdeser : requestType.paramsSerializer.deserializeFromJson params = .ok args) :
    (∀ message data code,
      handler args requestId = .raises (.requestHandlingError message data code) →
      handleRequest sendExceptionDetails errTruthy table { method := m, params := params } requestId =
        .error { code := code, message := message, data := none }) ∧
    (∀ text, handler args requestId = .raises (.other text) →
      handleRequest sendExceptionDetails errTruthy table { method := m, params := params } requestId =
        .error
          { code := ErrorCode.unexpectedServerError
            message :=
              if sendExceptionDetails then
                "An exception was thrown while handling a request: " ++ text ++ "."
              else "Server has thrown an unexpected exception"
            data := none }) := by
  constructor
  · intro message data code hret
    simp only [handleRequest, hlookup, hdeser, hret]
  · intro text hret
    simp only [handleRequest, hlookup, hdeser, hret]

/-- Witness for claim C2: applying it to the concrete table whose handler
raises a RequestHandlingError with data. -/
theorem claim_C2_witness :
    handleRequest false JSONValue.truthy c2Table { method := "calc", params := .null } (.num 0) =
      .error { code := ErrorCode.genericApplicationError, message := "boom", data := none } := by
  exact (claim_C2 false JSONValue.truthy c2Table rtCalc c2Handler "calc" .null .null (.num 0)
    rfl rfl).1 "boom" (some (.str "details")) ErrorCode.genericApplicationError rfl

/-- Claim C8 (confirmed): when the matching response for a pending request
arrives, a response with a result field resolves the caller future with that
result; otherwise a response with an error field resolves it with that error; a
response with neither rejects the future; and in each case the pending entry is
removed. -/
theorem claim_C8 (s : StreamChannelState) (msg : IResponseMessage) (futureId : Nat)
    (hpending : mapGet s.unprocessedResponses (responseIdToString msg.id) = some futureId) :
    (∀ r, msg.result = some r →
      (stepChannel s (.inboundResponse msg)).2 = [.futureResolved futureId (.result r)]) ∧
    (∀ e, msg.result = none → msg.error = some e →
      (stepChannel s (.inboundResponse msg)).2 = [.futureResolved futureId (.error e)]) ∧
    (msg.result = none → msg.error = none →
      (stepChannel s (.inboundResponse msg)).2 =
        [.futureRejected futureId "Response had neither 'result' nor 'error' field set."]) ∧
    mapGet (stepChannel s (.inboundResponse msg)).1.unprocessedResponses
      (responseIdToString msg.id) = none := by
  refine ⟨?_, ?_, ?_, ?_⟩
  · intro r hr
    simp only [stepChannel, hpending, settleResponse, hr]
  · intro e hr he
    simp only [stepChannel, hpending, settleResponse, hr, he]
  · intro hr he
    simp only [stepChannel, hpending, settleResponse, hr, he]
  · simp only [stepChannel, hpending]
    cases hs : settleResponse msg <;> simp [mapGet_mapDelete_self]

/-- A pending response message for the request with id 0. -/
def c8Response : IResponseMessage :=
  { id := some (.num 0), result := some (.str "blafoo") }

/-- Witness for claim C8: a channel with one pending request with id 0
receives the matching result response. -/
theorem claim_C8_witness :
    (stepChannel { unprocessedResponses := [("0", 0)], lastUsedRequestId := 1 }
        (.inboundResponse c8Response)).2 = [.futureResolved 0 (.result (.str "blafoo"))] := by
  exact (claim_C8 { unprocessedResponses := [("0", 0)], lastUsedRequestId := 1 }
    c8Response 0 rfl).1 (.str "blafoo") rfl

/-- Claim C6 (confirmed): setListener synchronously drains the buffered
messages before returning. A listener that leaves the slot alone receives every
buffered message in arrival order, exactly once; in general the drain delivers
some prefix of the buffer, once each and in order, and leaves the matching
suffix buffered; because the loop re-reads the slot, a listener that installs a
replacement hands the remaining messages to the replacement, and a listener
that clears the slot leaves them buffered; a message arriving while no listener
is installed is appended to the buffer. -/
theorem claim_C6 {M : Type} (beta : Nat → M → Option Nat) :
    (∀ (l : Nat) (buffer : List M) (log : List (Nat × M)),
      (∀ m, beta l m = some l) →
      setListener beta (some l)
          { unprocessedMessages := buffer, messageListener := none, deliveries := log } =
        { unprocessedMessages := [], messageListener := some l,
          deliveries := log ++ buffer.map fun m => (l, m) }) ∧
    (∀ (buffer : List M) (lis : Option Nat) (log : List (Nat × M)),
      ∃ d lis2, drainMessages beta buffer lis log = (buffer.drop d.length, lis2, log ++ d) ∧
        d.map Prod.snd = buffer.take d.length) ∧
    (∀ (l l2 : Nat) (m : M) (rest : List M) (log : List (Nat × M)),
      beta l m = some l2 → (∀ m2, beta l2 m2 = some l2) →
      setListener beta (some l)
          { unprocessedMessages := m :: rest, messageListener := none, deliveries := log } =
        { unprocessedMessages := [], messageListener := some l2,
          deliveries := (log ++ [(l, m)]) ++ rest.map fun m2 => (l2, m2) }) ∧
    (∀ (l : Nat) (m : M) (rest : List M) (log : List (Nat × M)),
      beta l m = none →
      setListener beta (some l)
          { unprocessedMessages := m :: rest, messageListener := none, deliveries := log } =
        { unprocessedMessages := rest, messageListener := none, deliveries := log ++ [(l, m)] }) ∧
    (∀ (m : M) (buffer : List M) (log : List (Nat × M)),
      dispatchReceivedMessage beta m
          { unprocessedMessages := buffer, messageListener := none, deliveries := log } =
        { unprocessedMessages := buffer ++ [m], messageListener := none, deliveries := log }) := by
  refine ⟨?_, ?_, ?_, ?_, ?_⟩
  · intro l buffer log hstat
    simp only [setListener, drainMessages_stationary beta l hstat]
  · intro buffer lis log
    exact drainMessages_delivers_prefix beta buffer lis log
  · intro l l2 m rest log hrep hstat
    simp only [setListener, drainMessages, hrep, drainMessages_stationary beta l2 hstat]
  · intro l m rest log hclear
    simp only [setListener, drainMessages, hclear]
  · intro m buffer log
    simp only [dispatchReceivedMessage]

/-- Witness for claim C6: two listeners, where listener 0 installs listener 1
on the first message and listener 1 keeps the slot; draining the buffer a, b, c
delivers a to listener 0 and b, c to listener 1. -/
theorem claim_C6_witness :
    setListener (fun l _ => if l = 0 then some 1 else some l) (some 0)
        { unprocessedMessages := ["a", "b", "c"], messageListener := none, deliveries := [] } =
      { unprocessedMessages := [], messageListener := some 1,
        deliveries := [(0, "a"), (1, "b"), (1, "c")] } := by
  have h := (claim_C6 (M := String) (fun l _ => if l = 0 then some 1 else some l)).2.2.1
    0 1 "a" ["b", "c"] [] rfl (fun m2 => rfl)
  simpa using h

/-- Claim C7 (confirmed): registering a request handler for a method that
already has any dispatch-table entry fails; registering a notification handler
for a method registered as a request fails; registering a notification handler
for the same method with a different descriptor object fails; registering an
additional notification handler with the identical descriptor succeeds and
adds to the handler set; and an inbound notification for that method whose
params deserialize invokes every handler in the set. -/
theorem claim_C7 {P R E : Type} :
    (∀ (table : HandlerTable P R E) (requestType : RequestType P R E)
        (handler : P → RequestId → HandlerOutcome R E) (entry : TableEntry P R E),
      mapGet table requestType.method = some entry →
      registerRequestHandler table requestType handler =
        .error ("Handler with method \"" ++ methodStr requestType.method ++ "\" already registered.")) ∧
    (∀ (table : HandlerTable P R E) (type : NotificationTypeObj P) (handler : Nat)
        (requestType : RequestType P R E) (rhandler : P → RequestId → HandlerOutcome R E),
      mapGet table type.type.method = some (.request requestType rhandler) →
      registerNotificationHandler table type handler =
        .error ("Method \"" ++ methodStr type.type.method ++ "\" was already registered as request handler.")) ∧
    (∀ (table : HandlerTable P R E) (type : NotificationTypeObj P) (handler : Nat)
        (registered : NotificationTypeObj P) (hs : List Nat),
      mapGet table type.type.method = some (.notification registered hs) →
      registered.ref ≠ type.ref →
      registerNotificationHandler table type handler =
        .error ("Method \"" ++ methodStr type.type.method ++ "\" was registered for a different type.")) ∧
    (∀ (table : HandlerTable P R E) (type : NotificationTypeObj P) (handler : Nat)
        (registered : NotificationTypeObj P) (hs : List Nat),
      mapGet table type.type.method = some (.notification registered hs) →
      registered.ref = type.ref →
      registerNotificationHandler table type handler =
        .ok (mapSet table type.type.method (.notification registered (setAdd hs handler)))) ∧
    (∀ (table : HandlerTable P R E) (type : NotificationTypeObj P) (handler : Nat)
        (registered : NotificationTypeObj P) (hs : List Nat) (m : String)
        (params : JSONValue) (args : P) (unknownNotificationHandlers : List Nat)
        (table2 : HandlerTable P R E),
      mapGet table type.type.method = some (.notification registered hs) →
      registered.ref = type.ref →
      type.type.method = some m →
      registered.type.paramsSerializer.deserializeFromJson params = .ok args →
      registerNotificationHandler table type handler = .ok table2 →
      (handleNotification table2 unknownNotificationHandlers
        { method := m, params := params }).invokedHandlers = setAdd hs handler) := by
  refine ⟨?_, ?_, ?_, ?_, ?_⟩
  · intro table requestType handler entry hget
    simp only [registerRequestHandler, hget]
  · intro table type handler requestType rhandler hget
    simp only [registerNotificationHandler, hget]
  · intro table type handler registered hs hget hne
    simp only [registerNotificationHandler, hget, if_pos hne]
  · intro table type handler registered hs hget heq
    simp only [registerNotificationHandler, hget]
    rw [if_neg (by simp [heq])]
  · intro table type handler registered hs m params args unknownNotificationHandlers table2
      hget heq hm hdeser hreg
    simp only [registerNotificationHandler, hget] at hreg
    rw [if_neg (by simp [heq])] at hreg
    have htable2 : table2 = mapSet table type.type.method (.notification registered (setAdd hs handler)) := by
      cases hreg
      rfl
    rw [htable2, hm]
    simp only [handleNotification, mapGet_mapSet_self, hdeser]

/-- Notification descriptor object with reference tag 0. -/
def ntObjA : NotificationTypeObj JSONValue :=
  { ref := 0, type := ntProgress }

/-- A dispatch table holding ntObjA with the single notification handler 5. -/
def c7Table : HandlerTable JSONValue JSONValue JSONValue :=
  [(some "progress", .notification ntObjA [5])]

/-- Witness for claim C7: adding handler 6 for the identical descriptor object
succeeds, and an inbound notification invokes both handlers in order. -/
theorem claim_C7_witness :
    registerNotificationHandler c7Table ntObjA 6 =
      .ok (mapSet c7Table (some "progress") (.notification ntObjA [5, 6])) ∧
    (handleNotification (mapSet c7Table (some "progress") (.notification ntObjA [5, 6]))
      [] { method := "progress", params := .null }).invokedHandlers = [5, 6] := by
  constructor
  · exact claim_C7.2.2.2.1 c7Table ntObjA 6 ntObjA [5] rfl rfl
  · exact claim_C7.2.2.2.2 c7Table ntObjA 6 ntObjA [5] "progress" .null .null [] _ rfl rfl rfl rfl
      (claim_C7.2.2.2.1 c7Table ntObjA 6 ntObjA [5] rfl rfl)

theorem mapDelete_append [DecidableEq K] (m1 m2 : List (K × V)) (k : K) :
    mapDelete (m1 ++ m2) k = mapDelete m1 k ++ mapDelete m2 k := by
  simp [mapDelete]

theorem stepChannel_sendFailure_resets {s : StreamChannelState} (hgood : goodState s)
    (req : RequestObject) (reason : String) :
    (stepChannel s (.sendRequest req (some reason))).1.unprocessedResponses =
      s.unprocessedResponses := by
  have hfresh := goodState_fresh hgood
  simp only [stepChannel]
  rw [mapSet_eq_append_of_not_mem _ _ _ hfresh, mapDelete_append,
    mapDelete_eq_self_of_not_mem _ _ hfresh]
  simp [mapDelete]

/-- Claim C4 (confirmed): within one StreamBasedChannel the outbound request
ids are issued by a monotonic counter starting at 0, so any two outbound
requests receive distinct ids (over any run the issued ids are exactly
0, 1, ..., n-1 in order); a successful send records the pending entry under the
string form of the id; a failed send leaves the pending table as it was and
rejects the caller future with the send failure; and a pending entry
disappears in a step exactly when that step is the arrival of a response whose
id has the matching string form. -/
theorem claim_C4 :
    (∀ events, issuedIds (runChannel events).2 = List.range (countSendRequests events)) ∧
    (∀ events req,
      mapKeys ((stepChannel (runChannel events).1 (.sendRequest req none)).1.unprocessedResponses) =
        mapKeys (runChannel events).1.unprocessedResponses ++
          [natToString (runChannel events).1.lastUsedRequestId]) ∧
    (∀ events req reason,
      (stepChannel (runChannel events).1 (.sendRequest req (some reason))).1.unprocessedResponses =
        (runChannel events).1.unprocessedResponses ∧
      (stepChannel (runChannel events).1 (.sendRequest req (some reason))).2 =
        [.idIssued (runChannel events).1.lastUsedRequestId,
         .futureRejected (runChannel events).1.lastUsedRequestId reason]) ∧
    (∀ events e k,
      k ∈ mapKeys (runChannel events).1.unprocessedResponses →
      (k ∉ mapKeys ((stepChannel (runChannel events).1 e).1.unprocessedResponses) ↔
        ∃ msg, e = .inboundResponse msg ∧ responseIdToString msg.id = k)) := by
  refine ⟨?_, ?_, ?_, ?_⟩
  · intro events
    rw [runChannel, runChannelFrom_issuedIds]
    simp [initialChannelState, List.range_eq_range']
  · intro events req
    have hfresh := goodState_fresh (runChannel_good events)
    simp only [stepChannel]
    rw [mapSet_eq_append_of_not_mem _ _ _ hfresh, mapKeys_append]
    rfl
  · intro events req reason
    exact ⟨stepChannel_sendFailure_resets (runChannel_good events) req reason, rfl⟩
  · intro events e k hk
    have hgood := runChannel_good events
    have hfresh := goodState_fresh hgood
    cases e with
    | sendRequest req f =>
      apply iff_of_false
      · cases f with
        | none =>
          intro habs
          apply habs
          simp only [stepChannel]
          rw [mapSet_eq_append_of_not_mem _ _ _ hfresh, mapKeys_append]
          exact List.mem_append_left _ hk
        | some reason =>
          intro habs
          apply habs
          rw [stepChannel_sendFailure_resets hgood req reason]
          exact hk
      · rintro ⟨msg, hmsg, _⟩
        exact ChannelEvent.noConfusion hmsg
    | inboundResponse msg =>
      cases hget : mapGet (runChannel events).1.unprocessedResponses (responseIdToString msg.id) with
      | none =>
        apply iff_of_false
        · intro habs
          apply habs
          simp only [stepChannel, hget]
          exact hk
        · rintro ⟨msg2, hmsg2, hid⟩
          cases hmsg2
          rw [hid] at hget
          exact absurd hk (mapGet_eq_none_iff _ _ |>.mp hget)
      | some futureId =>
        have hmap : (stepChannel (runChannel events).1 (.inboundResponse msg)).1.unprocessedResponses =
            mapDelete (runChannel events).1.unprocessedResponses (responseIdToString msg.id) := by
          simp only [stepChannel, hget]
          cases settleResponse msg <;> rfl
        rw [hmap]
        constructor
        · intro habs
          refine ⟨msg, rfl, ?_⟩
          by_contra hne
          apply habs
          rw [mem_mapKeys_mapDelete]
          exact ⟨hk, fun he => hne he.symm⟩
        · rintro ⟨msg2, hmsg2, hid⟩
          cases hmsg2
          rw [hid]
          rw [mem_mapKeys_mapDelete]
          simp

/-- A single successful outbound request event on a fresh channel. -/
def c4Events : List ChannelEvent :=
  [.sendRequest { method := "calc", params := .null } none]

/-- Witness for claim C4: after one successful send the pending table holds
the key with string form 0, and that entry disappears exactly on a response
whose id matches; in particular the matching response removes it. -/
theorem claim_C4_witness :
    ("0" ∈ mapKeys (runChannel c4Events).1.unprocessedResponses) ∧
    ("0" ∉ mapKeys ((stepChannel (runChannel c4Events).1
        (.inboundResponse c8Response)).1.unprocessedResponses) ↔
      ∃ msg, ChannelEvent.inboundResponse c8Response = ChannelEvent.inboundResponse msg ∧
        responseIdToString msg.id = "0") := by
  refine ⟨?_, ?_⟩
  · decide
  · exact claim_C4.2.2.2 c4Events (.inboundResponse c8Response) "0" (by decide)

/-- A handler that returns a wrapped error with the explicit code 0 and the
message boom. -/
def c1cHandler : JSONValue → RequestId → HandlerOutcome JSONValue JSONValue :=
  fun _ _ => .returns (.err { errorMessage := some "boom", errorCode := some 0 })

/-- Dispatch table holding c1cHandler under the method calc. -/
def c1cTable : HandlerTable JSONValue JSONValue JSONValue :=
  [(some "calc", .request rtCalc c1cHandler)]

/-- Counterexample to claim C1 as stated: the handler chose the code 0, but
because the source picks the code with a JavaScript or-default, the caller
observes genericApplicationError instead of 0. -/
theorem claim_C1_counterexample :
    requestProcessResponse rtCalc
        (handleRequest false JSONValue.truthy c1cTable { method := "calc", params := .null } (.num 0)) =
      .raisedRequestHandlingError "boom" none ErrorCode.genericApplicationError ∧
    ErrorCode.genericApplicationError ≠ (0 : Int) := by
  exact ⟨rfl, by decide⟩

/-- Claim C1 (amended): when a registered handler returns a wrapped error, the
caller awaiting request observes a raised RequestHandlingError whose code is
the code the handler chose when that code is truthy (nonzero), and
genericApplicationError otherwise; whose message is the message the handler
gave when that message is truthy (nonempty), and the default text otherwise;
and whose data is the error value round-tripped through the descriptors error
serializer when the error value is truthy, and absent otherwise. The statement
threads the response through the wire framing and through the pending-callback
unframing, and assumes the error-serializer round trip succeeds and that the
descriptor is not an optional one whose chosen code is methodNotFound (those
resolve to the sentinel instead). -/
theorem claim_C1 {P R E : Type} (sendExceptionDetails : Bool) (errTruthy : E → Bool)
    (table : HandlerTable P R E) (requestType : RequestType P R E)
    (handler : P → RequestId → HandlerOutcome R E) (m : String) (params : JSONValue)
    (args : P) (requestId : RequestId) (r : ErrorResult E)
    (hlookup : mapGet table (some m) = some (.request requestType handler))
    (hdeser : requestType.paramsSerializer.deserializeFromJson params = .ok args)
    (hret : handler args requestId = .returns (.err r))
    (hguard : ¬(requestType.isOptional = true ∧ chosenErrorCode r = ErrorCode.methodNotFound)) :
    ∀ response,
      response = handleRequest sendExceptionDetails errTruthy table
        { method := m, params := params } requestId →
      (settleResponse (frameResponse requestId response) = some response) ∧
      (r.error = none →
        requestProcessResponse requestType response =
          .raisedRequestHandlingError (chosenErrorMessage r) none (chosenErrorCode r)) ∧
      (∀ e, r.error = some e → errTruthy e = false →
        requestProcessResponse requestType response =
          .raisedRequestHandlingError (chosenErrorMessage r) none (chosenErrorCode r)) ∧
      (∀ e v, r.error = some e → errTruthy e = true →
        requestType.errorSerializer.deserializeFromJson
          (requestType.errorSerializer.serializeToJson e) = .ok v →
        requestProcessResponse requestType response =
          .raisedRequestHandlingError (chosenErrorMessage r) (some v) (chosenErrorCode r)) := by
  intro response hresp
  have hr : response =
      .error
        { code := chosenErrorCode r
          message := chosenErrorMessage r
          data :=
            match r.error with
            | some e =>
              if errTruthy e then some (requestType.errorSerializer.serializeToJson e) else none
            | none => none } := by
    rw [hresp]
    simp only [handleRequest, hlookup, hdeser, hret, chosenErrorCode, chosenErrorMessage]
  refine ⟨?_, ?_, ?_, ?_⟩
  · rw [hr]
    rfl
  · intro he
    rw [hr]
    simp only [he, requestProcessResponse, if_neg hguard]
  · intro e he ht
    rw [hr]
    simp only [he, ht, requestProcessResponse, if_neg hguard, Bool.false_eq_true, if_false]
  · intro e v he ht hround
    rw [hr]
    simp only [he, ht, if_true, requestProcessResponse, if_neg hguard, hround]

/-- A wrapped error with truthy code, message and data. -/
def c1wErrorResult : ErrorResult JSONValue :=
  { error := some (.str "d"), errorMessage := some "boom", errorCode := some 7 }

/-- A handler returning c1wErrorResult. -/
def c1wHandler : JSONValue → RequestId → HandlerOutcome JSONValue JSONValue :=
  fun _ _ => .returns (.err c1wErrorResult)

/-- Dispatch table holding c1wHandler under the method calc. -/
def c1wTable : HandlerTable JSONValue JSONValue JSONValue :=
  [(some "calc", .request rtCalc c1wHandler)]

/-- Witness for claim C1: for a handler returning code 7, message boom and
data the string d, the caller observes a RequestHandlingError carrying exactly
those. -/
theorem claim_C1_witness :
    requestProcessResponse rtCalc
        (handleRequest false JSONValue.truthy c1wTable { method := "calc", params := .null } (.num 0)) =
      .raisedRequestHandlingError "boom" (some (.str "d")) 7 := by
  exact (claim_C1 false JSONValue.truthy c1wTable rtCalc c1wHandler "calc" .null .null (.num 0)
    c1wErrorResult rfl rfl rfl (by decide) _ rfl).2.2.2 (.str "d") (.str "d") rfl rfl rfl

end JsonRpc
